import Mathlib

/-!
# Lost Cities rules engine — shallow embedding and verification

A shallow embedding of the Lost Cities rules engine found in
`backend/domains/game/service.py` (the service layer; `logic.py` holds the same
functions over module-level globals) together with the shared data model of
`backend/shared_types.py`.  The Python code mutates a `GameState` in place and
signals failures by raising `ValueError`; here every operation is a pure
function returning the post-call state together with an optional error, so an
operation that raises before mutating returns its input state unchanged, and a
`turn` whose `draw` step raises returns the state with the `put` step already
committed — exactly the caller-visible behaviour of the Python code.
-/

namespace LostCities

/-- The six expedition colors (`CardColor` literal in `shared_types.py`). -/
inductive CardColor where
  | RED | BLUE | GREEN | YELLOW | WHITE | PURPLE
  deriving DecidableEq, Repr

open CardColor

/-- `COLORS` tuple from `shared_types.py`, in source order. -/
def COLORS : List CardColor := [RED, BLUE, GREEN, YELLOW, WHITE, PURPLE]

/-- A card: color plus value.  In the source `value` is the literal type
`{0, 2..10}`; we use `Nat` and the deck-construction code only ever produces
those values. -/
structure Card where
  color : CardColor
  value : Nat
  deriving DecidableEq, Repr

/-- A total map from the six colors, standing in for the Python
`dict[CardColor, Stack]`; a `Stack` in the source is a wrapper around a
`list[Card]` with top = end, so each entry is a `List Card`. -/
structure ColorMap (α : Type) where
  red : α
  blue : α
  green : α
  yellow : α
  white : α
  purple : α
  deriving DecidableEq, Repr

def ColorMap.get {α : Type} (m : ColorMap α) : CardColor → α
  | RED => m.red
  | BLUE => m.blue
  | GREEN => m.green
  | YELLOW => m.yellow
  | WHITE => m.white
  | PURPLE => m.purple

def ColorMap.set {α : Type} (m : ColorMap α) (c : CardColor) (v : α) : ColorMap α :=
  match c with
  | RED => { m with red := v }
  | BLUE => { m with blue := v }
  | GREEN => { m with green := v }
  | YELLOW => { m with yellow := v }
  | WHITE => { m with white := v }
  | PURPLE => { m with purple := v }

/-- The six empty stacks: `{c: Stack() for c in COLORS}`. -/
def emptyPiles : ColorMap (List Card) := ⟨[], [], [], [], [], []⟩

/-- A player (`Player` dataclass): hand, six expedition stacks, score. -/
structure Player where
  hand : List Card
  expeditions : ColorMap (List Card)
  score : Int
  deriving DecidableEq, Repr

/-- `GamePhase` literal. -/
inductive GamePhase where
  | PLAY | DRAW | GAME_OVER
  deriving DecidableEq, Repr

/-- Which of the two players an engine call acts on (the Python functions take
the player object, always one of `game.players`). -/
inductive PlayerId where
  | P1 | P2
  deriving DecidableEq, Repr

/-- `GameState` dataclass. -/
structure GameState where
  players : Player × Player
  current_player : Nat
  phase : GamePhase
  deck : List Card
  discard_piles : ColorMap (List Card)
  deriving DecidableEq, Repr

def GameState.getPlayer (g : GameState) : PlayerId → Player
  | .P1 => g.players.1
  | .P2 => g.players.2

def GameState.setPlayer (g : GameState) : PlayerId → Player → GameState
  | .P1, p => { g with players := (p, g.players.2) }
  | .P2, p => { g with players := (g.players.1, p) }

/-- `PlayTarget` literal. -/
inductive PlayTarget where
  | expedition | discard
  deriving DecidableEq, Repr

/-- `DrawSource` literal. -/
inductive DrawSource where
  | deck | discard
  deriving DecidableEq, Repr

/-- The error kinds of §7 of the spec; the Python code raises `ValueError`
with the recorded message, and the spec classifies each message into one of
these three kinds. -/
inductive GameError where
  | invalidMove (msg : String)
  | emptyResource (msg : String)
  | missingParameter (msg : String)
  deriving DecidableEq, Repr

def colorName : CardColor → String
  | RED => "RED"
  | BLUE => "BLUE"
  | GREEN => "GREEN"
  | YELLOW => "YELLOW"
  | WHITE => "WHITE"
  | PURPLE => "PURPLE"

/-! ## Game initialization (`service.py`) -/

/-- The raw 72-card deck built by `init_game` before shuffling: for each color
in `COLORS` order, three handshake (value 0) cards then the numbers 2..10. -/
def rawDeck : List Card :=
  (COLORS.map (fun c =>
    List.replicate 3 (Card.mk c 0) ++ (List.range' 2 9).map (fun v => Card.mk c v))).flatten

/-- Modelled from the spec: `init_game` seeds Python's global `random`
generator (a Mersenne Twister, not part of this repository) and calls
`random.shuffle`, whose per-step index draw is `_randbelow(i + 1)`.  The spec
relies only on the generator being a deterministic pure function of the seed;
we model the draw at shuffle step `i` as an arbitrary fixed deterministic
mixing function of `seed` and `i`, reduced modulo `i + 1` as `_randbelow`
guarantees. -/
def randbelow (seed i n : Nat) : Nat :=
  ((seed + 1) * 2654435761 + i * 40503 + (seed * i) % 65537) % (2 ^ 32) % n

/-- Swap the entries at positions `i` and `j` of a list (identity when either
index is out of range), as `x[i], x[j] = x[j], x[i]` does in `random.shuffle`. -/
def listSwap (l : List Card) (i j : Nat) : List Card :=
  match l[i]?, l[j]? with
  | some x, some y => (l.set i y).set j x
  | _, _ => l

/-- The Fisher-Yates loop of `random.shuffle`: for `i` from `len - 1` down to
`1`, swap position `i` with position `j = _randbelow(i + 1)`.  The first
argument of each recursive call is the current loop index `i`. -/
def shuffleAux (seed : Nat) : Nat → List Card → List Card
  | 0, l => l
  | i + 1, l => shuffleAux seed i (listSwap l (i + 1) (randbelow seed (i + 1) (i + 2)))

/-- `random.shuffle(raw_deck)` under seed `seed`. -/
def shuffle (seed : Nat) (l : List Card) : List Card :=
  shuffleAux seed (l.length - 1) l

/-- The dealing loop of `init_game`: `n` rounds of
`p1.hand.append(raw_deck.pop()); p2.hand.append(raw_deck.pop())`, with the top
of the deck at the end of the list.  Returns the remaining deck and the two
hands.  (The `none` branches are unreachable for the 72-card deck.) -/
def dealRounds : Nat → List Card × List Card × List Card → List Card × List Card × List Card
  | 0, s => s
  | n + 1, (d, h1, h2) =>
    match d.getLast? with
    | none => (d, h1, h2)
    | some c1 =>
      let d1 := d.dropLast
      match d1.getLast? with
      | none => (d1, h1 ++ [c1], h2)
      | some c2 => dealRounds n (d1.dropLast, h1 ++ [c1], h2 ++ [c2])

/-- `init_game(seed)` for an integer seed (the claims under study all supply
one; the `seed=None` branch, which leaves the process-wide generator state
untouched, is outside the purely functional model): build the raw 72-card
deck, shuffle it with the seeded generator, deal 8 cards to each player
alternating player 1 first, and return the fresh state. -/
def init_game (seed : Nat) : GameState :=
  let shuffled := shuffle seed rawDeck
  let dealt := dealRounds 8 (shuffled, [], [])
  { players :=
      ({ hand := dealt.2.1, expeditions := emptyPiles, score := 0 },
       { hand := dealt.2.2, expeditions := emptyPiles, score := 0 }),
    current_player := 0,
    phase := .PLAY,
    deck := dealt.1,
    discard_piles := emptyPiles }

/-! ## Game actions (`service.py`) -/

/-- `put(game, card, player, target, color)`.

Mirrors `service.py` lines 71-97: first the membership check on the hand
(`card not in player.hand` — value equality, raising before any mutation),
then for `discard` an unconditional append to the chosen pile plus
`hand.remove(card)` (first value-equal occurrence, `List.erase`), and for
`expedition` the check of the card's value against the last non-zero value on
the chosen expedition, then append plus remove.  Returns the post-call state
and the raised error, if any. -/
def put (g : GameState) (card : Card) (p : PlayerId) (target : PlayTarget)
    (color : CardColor) : GameState × Option GameError :=
  let player := g.getPlayer p
  if card ∈ player.hand then
    match target with
    | .discard =>
      let g1 := { g with
        discard_piles := g.discard_piles.set color (g.discard_piles.get color ++ [card]) }
      (g1.setPlayer p { player with hand := player.hand.erase card }, none)
    | .expedition =>
      let stack := player.expeditions.get color
      let last_numbers := (stack.filter (fun c => c.value ≠ 0)).map Card.value
      let played := (g.setPlayer p { player with
          hand := player.hand.erase card,
          expeditions := player.expeditions.set color (stack ++ [card]) }, none)
      match last_numbers.getLast? with
      | some v =>
        if card.value < v then
          (g, some (.invalidMove "Number card must be >= previous number card"))
        else played
      | none => played
  else
    (g, some (.invalidMove "Player does not have that card"))

/-- `draw(game, player, source, color=None)`.

Mirrors `service.py` lines 100-123: drawing from the deck pops the top
(= end of the list), raising when the deck is empty; drawing from a discard
pile first requires a color, then pops the top of that pile (LIFO), raising
when it is empty.  The drawn card is appended to the player's hand.  Returns
the post-call state and either the drawn card or the raised error. -/
def draw (g : GameState) (p : PlayerId) (source : DrawSource)
    (color : Option CardColor) : GameState × Except GameError Card :=
  match source with
  | .deck =>
    match g.deck.getLast? with
    | none => (g, .error (.emptyResource "Deck is empty"))
    | some card =>
      let player := g.getPlayer p
      ({ g.setPlayer p { player with hand := player.hand ++ [card] } with
          deck := g.deck.dropLast }, .ok card)
  | .discard =>
    match color with
    | none => (g, .error (.missingParameter "Color required when drawing from discard"))
    | some c =>
      let pile := g.discard_piles.get c
      match pile.getLast? with
      | none => (g, .error (.emptyResource ("Discard pile " ++ colorName c ++ " is empty")))
      | some card =>
        let player := g.getPlayer p
        ({ g.setPlayer p { player with hand := player.hand ++ [card] } with
            discard_piles := g.discard_piles.set c pile.dropLast }, .ok card)

/-- `turn(game, player, play_card, play_target, play_color, draw_source,
draw_color=None)`: `put` then `draw`; an exception in `put` aborts the call
before `draw` runs, an exception in `draw` propagates with the `put` already
committed to the caller's state. -/
def turn (g : GameState) (p : PlayerId) (play_card : Card) (play_target : PlayTarget)
    (play_color : CardColor) (draw_source : DrawSource)
    (draw_color : Option CardColor) : GameState × Option GameError :=
  match put g play_card p play_target play_color with
  | (g1, some e) => (g1, some e)
  | (g1, none) =>
    match draw g1 p draw_source draw_color with
    | (g2, .error e) => (g2, some e)
    | (g2, .ok _) => (g2, none)

/-! ## Scoring (`service.py`) -/

/-- `score_expedition(stack)`: 0 for an empty stack, else
`(handshake_count + 1) * (number_sum - 20)`. -/
def score_expedition (stack : List Card) : Int :=
  if stack = [] then 0
  else
    let handshake_count := (stack.filter (fun c => c.value = 0)).length
    let number_sum := ((stack.filter (fun c => c.value ≠ 0)).map Card.value).sum
    ((handshake_count : Int) + 1) * ((number_sum : Int) - 20)

/-- `calculate_score(player)`: sum over the six expedition stacks, in the
insertion order of the expeditions dict (= `COLORS` order). -/
def calculate_score (p : Player) : Int :=
  (COLORS.map (fun c => score_expedition (p.expeditions.get c))).sum

/-- Result of `get_winner`: the Python function returns one of the two player
objects or the string `"Draw"`. -/
inductive WinResult where
  | winner (p : Player)
  | tie
  deriving DecidableEq, Repr

/-- `get_winner(p1, p2)`. -/
def get_winner (p1 p2 : Player) : WinResult :=
  let s1 := calculate_score p1
  let s2 := calculate_score p2
  if s1 > s2 then .winner p1
  else if s2 > s1 then .winner p2
  else .tie

/-! ## Derived notions used by the verification -/

/-- The value of the most recently played non-zero (number) card on an
expedition stack, if any — the value `put` compares against
(`last_numbers[-1]` in the source). -/
def lastNonzeroValue (stack : List Card) : Option Nat :=
  ((stack.filter (fun c => c.value ≠ 0)).map Card.value).getLast?

/-- The value rule `put` enforces on an expedition play, phrased purely on the
card's value: legal when no number card has been played yet, else when the
value is at least the most recent number value. -/
def expedition_value_ok (stack : List Card) (v : Nat) : Bool :=
  match lastNonzeroValue stack with
  | none => true
  | some w => decide (w ≤ v)

/-- The legality condition exactly as the spec states it for
`target = expedition`: the stack is empty, or the card is a handshake
(value 0, "always appendable"), or the value is at least the most recently
played non-zero value. -/
def spec_expedition_legal (stack : List Card) (v : Nat) : Bool :=
  stack.isEmpty || decide (v = 0) ||
    (match lastNonzeroValue stack with
     | none => true
     | some w => decide (w ≤ v))

/-- Sum of the lengths of the six stacks of a color map. -/
def sumLens (m : ColorMap (List Card)) : Nat :=
  (COLORS.map (fun c => (m.get c).length)).sum

/-- Total number of cards in a state: deck, both hands, all twelve expedition
stacks, all six discard piles. -/
def totalCards (g : GameState) : Nat :=
  g.deck.length + (g.players.1.hand.length + g.players.2.hand.length) +
    (sumLens g.players.1.expeditions + sumLens g.players.2.expeditions) +
    sumLens g.discard_piles

/-- States reachable from `init_game` by any sequence of `put`, `draw` and
`turn` calls, successful or failing (the first component of each operation's
result is the caller-visible post-call state in either case). -/
inductive Reach : GameState → Prop where
  | init (seed : Nat) : Reach (init_game seed)
  | step_put {g : GameState} (card : Card) (p : PlayerId) (t : PlayTarget)
      (c : CardColor) : Reach g → Reach (put g card p t c).1
  | step_draw {g : GameState} (p : PlayerId) (s : DrawSource)
      (c : Option CardColor) : Reach g → Reach (draw g p s c).1
  | step_turn {g : GameState} (p : PlayerId) (pc : Card) (pt : PlayTarget)
      (pcol : CardColor) (ds : DrawSource) (dc : Option CardColor) :
      Reach g → Reach (turn g p pc pt pcol ds dc).1

/-- A small concrete state used to witness the theorems: player 1 holds a red
handshake and a blue 3 and has a red 5 on the red expedition; the blue
discard pile holds a blue 9; the deck holds two cards. -/
def sampleState : GameState :=
  { players :=
      ({ hand := [Card.mk RED 0, Card.mk BLUE 3],
         expeditions := emptyPiles.set RED [Card.mk RED 5], score := 0 },
       { hand := [Card.mk GREEN 7], expeditions := emptyPiles, score := 0 }),
    current_player := 0,
    phase := .PLAY,
    deck := [Card.mk WHITE 2, Card.mk YELLOW 4],
    discard_piles := emptyPiles.set BLUE [Card.mk BLUE 9] }

/-- `h` in the spec's scoring formula: the count of value-0 cards in the
stack (stated via `countP`, independently of the implementation's
`filter`-then-`length`). -/
def handshake_count_spec (stack : List Card) : Nat :=
  stack.countP (fun c => c.value == 0)

/-- `s` in the spec's scoring formula: the sum of the non-zero values in the
stack.  Since value-0 cards contribute nothing to a sum, this equals the sum
of all the card values, which is how we state it (independently of the
implementation's `filter`-then-sum). -/
def number_sum_spec (stack : List Card) : Nat :=
  (stack.map Card.value).sum

/-- A player who has played 2, 3, 10 on the red expedition (scores −5). -/
def samplePlayerA : Player :=
  { hand := [],
    expeditions := emptyPiles.set RED [Card.mk RED 2, Card.mk RED 3, Card.mk RED 10],
    score := 0 }

/-- A player with no expedition cards at all (scores 0). -/
def samplePlayerB : Player :=
  { hand := [], expeditions := emptyPiles, score := 0 }

/-! ## Helper lemmas: the shuffle permutes, dealing lengths -/

theorem listSwap_perm (l : List Card) (i j : Nat) : (listSwap l i j).Perm l := by
  unfold listSwap
  split
  · rename_i x y h1 h2
    obtain ⟨hi, hxi⟩ := List.getElem?_eq_some_iff.mp h1
    obtain ⟨hj, hyj⟩ := List.getElem?_eq_some_iff.mp h2
    have hxmem : x ∈ l := hxi ▸ List.getElem_mem hi
    have hLj : (l.set i y)[j]? = some y := by
      by_cases hij : i = j
      · subst hij
        exact List.getElem?_set_self (by omega)
      · rw [List.getElem?_set_ne hij]
        rw [h2]
    obtain ⟨hj', hyj'⟩ := List.getElem?_eq_some_iff.mp hLj
    rw [List.perm_iff_count]
    intro a
    rw [List.count_set x a (l.set i y) j hj', List.count_set y a l i hi]
    have hcx : (if a = x then 1 else 0) ≤ List.count a l := by
      by_cases hax : a = x
      · subst hax
        simpa using List.count_pos_iff.mpr hxmem
      · simp [hax]
    simp only [hyj', hxi, beq_iff_eq]
    by_cases hax : x = a <;> by_cases hay : y = a <;>
      simp_all <;> omega
  · exact List.Perm.refl _

theorem shuffleAux_perm (seed : Nat) : ∀ (n : Nat) (l : List Card), (shuffleAux seed n l).Perm l
  | 0, l => List.Perm.refl l
  | n + 1, l => by
    unfold shuffleAux
    exact (shuffleAux_perm seed n _).trans (listSwap_perm l (n + 1) _)

theorem shuffle_perm (seed : Nat) (l : List Card) : (shuffle seed l).Perm l :=
  shuffleAux_perm seed (l.length - 1) l

theorem shuffled_length (seed : Nat) : (shuffle seed rawDeck).length = 72 :=
  (shuffle_perm seed rawDeck).length_eq.trans (by decide)

theorem dealRounds_lengths : ∀ (n : Nat) (d h1 h2 : List Card), 2 * n ≤ d.length →
    (dealRounds n (d, h1, h2)).1.length = d.length - 2 * n ∧
    (dealRounds n (d, h1, h2)).2.1.length = h1.length + n ∧
    (dealRounds n (d, h1, h2)).2.2.length = h2.length + n := by
  intro n
  induction n with
  | zero => intro d h1 h2 _; simp [dealRounds]
  | succ n ih =>
    intro d h1 h2 hlen
    have hd : d ≠ [] := by
      intro h
      subst h
      simp at hlen
    obtain ⟨c1, hc1⟩ := Option.isSome_iff_exists.mp (List.getLast?_isSome.mpr hd)
    have hd1 : d.dropLast ≠ [] := by
      intro h
      have h2' := List.length_dropLast d
      rw [h] at h2'
      simp at h2'
      have : d.length ≥ 2 := by omega
      omega
    obtain ⟨c2, hc2⟩ := Option.isSome_iff_exists.mp (List.getLast?_isSome.mpr hd1)
    have hrec := ih d.dropLast.dropLast (h1 ++ [c1]) (h2 ++ [c2])
      (by simp [List.length_dropLast]; omega)
    rcases hrec with ⟨ha, hb, hcc⟩
    simp only [dealRounds, hc1, hc2]
    refine ⟨?_, ?_, ?_⟩ <;> simp [ha, hb, hcc, List.length_dropLast] <;> omega

theorem init_game_lengths (seed : Nat) :
    (init_game seed).deck.length = 56 ∧
    (init_game seed).players.1.hand.length = 8 ∧
    (init_game seed).players.2.hand.length = 8 := by
  have h := dealRounds_lengths 8 (shuffle seed rawDeck) [] []
    (by rw [shuffled_length]; omega)
  rcases h with ⟨ha, hb, hc⟩
  rw [shuffled_length] at ha
  simp only [init_game]
  exact ⟨ha, by simpa using hb, by simpa using hc⟩

/-! ## Helper lemmas: state accessors -/

@[simp]
theorem getPlayer_setPlayer_same (g : GameState) (p : PlayerId) (pl : Player) :
    (g.setPlayer p pl).getPlayer p = pl := by
  cases p <;> rfl

theorem getPlayer_setPlayer_ne (g : GameState) {p q : PlayerId} (pl : Player) (h : p ≠ q) :
    (g.setPlayer p pl).getPlayer q = g.getPlayer q := by
  cases p <;> cases q <;> simp_all [GameState.setPlayer, GameState.getPlayer]

@[simp]
theorem setPlayer_phase (g : GameState) (p : PlayerId) (pl : Player) :
    (g.setPlayer p pl).phase = g.phase := by
  cases p <;> rfl

@[simp]
theorem setPlayer_current (g : GameState) (p : PlayerId) (pl : Player) :
    (g.setPlayer p pl).current_player = g.current_player := by
  cases p <;> rfl

@[simp]
theorem setPlayer_deck (g : GameState) (p : PlayerId) (pl : Player) :
    (g.setPlayer p pl).deck = g.deck := by
  cases p <;> rfl

@[simp]
theorem setPlayer_discard (g : GameState) (p : PlayerId) (pl : Player) :
    (g.setPlayer p pl).discard_piles = g.discard_piles := by
  cases p <;> rfl

/-! ## Helper lemmas: branch equations for `put` and `draw` -/

theorem put_eq_not_mem {g : GameState} {card : Card} {p : PlayerId} {t : PlayTarget}
    {c : CardColor} (h : card ∉ (g.getPlayer p).hand) :
    put g card p t c = (g, some (.invalidMove "Player does not have that card")) := by
  unfold put
  rw [if_neg h]

theorem put_eq_discard {g : GameState} {card : Card} {p : PlayerId} {c : CardColor}
    (h : card ∈ (g.getPlayer p).hand) :
    put g card p .discard c =
      (({ g with discard_piles :=
            g.discard_piles.set c (g.discard_piles.get c ++ [card]) } : GameState).setPlayer p
          { g.getPlayer p with hand := (g.getPlayer p).hand.erase card }, none) := by
  unfold put
  rw [if_pos h]

theorem put_eq_expedition_illegal {g : GameState} {card : Card} {p : PlayerId}
    {c : CardColor} {w : Nat} (h : card ∈ (g.getPlayer p).hand)
    (hw : lastNonzeroValue ((g.getPlayer p).expeditions.get c) = some w)
    (hlt : card.value < w) :
    put g card p .expedition c =
      (g, some (.invalidMove "Number card must be >= previous number card")) := by
  unfold put
  rw [if_pos h]
  simp only [lastNonzeroValue] at hw
  simp only [hw]
  rw [if_pos hlt]

theorem put_eq_expedition_legal {g : GameState} {card : Card} {p : PlayerId}
    {c : CardColor} (h : card ∈ (g.getPlayer p).hand)
    (hok : expedition_value_ok ((g.getPlayer p).expeditions.get c) card.value = true) :
    put g card p .expedition c =
      (g.setPlayer p
        { g.getPlayer p with
            hand := (g.getPlayer p).hand.erase card,
            expeditions := (g.getPlayer p).expeditions.set c
              ((g.getPlayer p).expeditions.get c ++ [card]) }, none) := by
  unfold put
  rw [if_pos h]
  unfold expedition_value_ok at hok
  simp only [lastNonzeroValue] at hok
  rcases hlast : ((g.getPlayer p).expeditions.get c |>.filter
      (fun c => c.value ≠ 0)).map Card.value |>.getLast? with _ | w
  · simp only [hlast]
  · rw [hlast] at hok
    simp only [decide_eq_true_eq] at hok
    simp only [hlast]
    rw [if_neg (Nat.not_lt.mpr hok)]

theorem draw_eq_deck_empty {g : GameState} {p : PlayerId} {col : Option CardColor}
    (h : g.deck = []) :
    draw g p .deck col = (g, .error (.emptyResource "Deck is empty")) := by
  unfold draw
  rw [List.getLast?_eq_none_iff.mpr h]

theorem draw_eq_deck_top {g : GameState} {p : PlayerId} {col : Option CardColor}
    {card : Card} (h : g.deck.getLast? = some card) :
    draw g p .deck col =
      ({ g.setPlayer p { g.getPlayer p with hand := (g.getPlayer p).hand ++ [card] } with
          deck := g.deck.dropLast }, .ok card) := by
  unfold draw
  rw [h]

theorem draw_eq_discard_no_color {g : GameState} {p : PlayerId} :
    draw g p .discard none = (g, .error (.missingParameter "Color required when drawing from discard")) := by
  rfl

theorem draw_eq_discard_empty {g : GameState} {p : PlayerId} {c : CardColor}
    (h : g.discard_piles.get c = []) :
    draw g p .discard (some c) =
      (g, .error (.emptyResource ("Discard pile " ++ colorName c ++ " is empty"))) := by
  have h' : (g.discard_piles.get c).getLast? = none := List.getLast?_eq_none_iff.mpr h
  unfold draw
  simp only [h']

theorem draw_eq_discard_top {g : GameState} {p : PlayerId} {c : CardColor} {card : Card}
    (h : (g.discard_piles.get c).getLast? = some card) :
    draw g p .discard (some c) =
      ({ g.setPlayer p { g.getPlayer p with hand := (g.getPlayer p).hand ++ [card] } with
          discard_piles := g.discard_piles.set c (g.discard_piles.get c).dropLast },
        .ok card) := by
  unfold draw
  simp only [h]

/-! ## Helper lemmas: exhaustive case analysis on the expedition value rule -/

theorem expedition_cases (stack : List Card) (v : Nat) :
    expedition_value_ok stack v = true ∨
      (expedition_value_ok stack v = false ∧
        ∃ w, lastNonzeroValue stack = some w ∧ v < w) := by
  unfold expedition_value_ok
  rcases h : lastNonzeroValue stack with _ | w
  · exact .inl rfl
  · by_cases hw : w ≤ v
    · exact .inl (by simp [hw])
    · exact .inr ⟨by simp [hw], w, rfl, by omega⟩

theorem setPlayer_scores (g : GameState) (p : PlayerId) (pl : Player)
    (h : pl.score = (g.getPlayer p).score) :
    (g.setPlayer p pl).players.1.score = g.players.1.score ∧
      (g.setPlayer p pl).players.2.score = g.players.2.score := by
  cases p <;> simp [GameState.setPlayer, GameState.getPlayer] at * <;> simp [h]

/-! ## Helper lemmas: the frame of each operation -/

theorem put_frame (g : GameState) (card : Card) (p : PlayerId) (t : PlayTarget)
    (c : CardColor) :
    (put g card p t c).1.phase = g.phase ∧
    (put g card p t c).1.current_player = g.current_player ∧
    (put g card p t c).1.players.1.score = g.players.1.score ∧
    (put g card p t c).1.players.2.score = g.players.2.score := by
  by_cases hm : card ∈ (g.getPlayer p).hand
  · cases t
    · rcases expedition_cases ((g.getPlayer p).expeditions.get c) card.value with hok | ⟨_, w, hw, hlt⟩
      · rw [put_eq_expedition_legal hm hok]
        refine ⟨setPlayer_phase .., setPlayer_current .., ?_⟩
        exact setPlayer_scores g p _ rfl
      · rw [put_eq_expedition_illegal hm hw hlt]
        exact ⟨rfl, rfl, rfl, rfl⟩
    · rw [put_eq_discard hm]
      refine ⟨setPlayer_phase .., setPlayer_current .., ?_⟩
      have := setPlayer_scores { g with
          discard_piles := g.discard_piles.set c (g.discard_piles.get c ++ [card]) } p
        { g.getPlayer p with hand := (g.getPlayer p).hand.erase card } (by cases p <;> rfl)
      exact this
  · rw [put_eq_not_mem hm]
    exact ⟨rfl, rfl, rfl, rfl⟩

theorem draw_frame (g : GameState) (p : PlayerId) (s : DrawSource) (c : Option CardColor) :
    (draw g p s c).1.phase = g.phase ∧
    (draw g p s c).1.current_player = g.current_player ∧
    (draw g p s c).1.players.1.score = g.players.1.score ∧
    (draw g p s c).1.players.2.score = g.players.2.score := by
  cases s
  · rcases hdk : g.deck.getLast? with _ | card
    · rw [draw_eq_deck_empty (List.getLast?_eq_none_iff.mp hdk)]
      exact ⟨rfl, rfl, rfl, rfl⟩
    · rw [draw_eq_deck_top hdk]
      refine ⟨setPlayer_phase .., setPlayer_current .., ?_⟩
      exact setPlayer_scores g p _ rfl
  · rcases c with _ | c
    · rw [draw_eq_discard_no_color]
      exact ⟨rfl, rfl, rfl, rfl⟩
    · rcases hp : (g.discard_piles.get c).getLast? with _ | card
      · rw [draw_eq_discard_empty (List.getLast?_eq_none_iff.mp hp)]
        exact ⟨rfl, rfl, rfl, rfl⟩
      · rw [draw_eq_discard_top hp]
        refine ⟨?_, ?_, ?_⟩
        · exact setPlayer_phase ..
        · exact setPlayer_current ..
        · exact setPlayer_scores g p _ rfl

theorem turn_frame (g : GameState) (p : PlayerId) (pc : Card) (pt : PlayTarget)
    (pcol : CardColor) (ds : DrawSource) (dc : Option CardColor) :
    (turn g p pc pt pcol ds dc).1.phase = g.phase ∧
    (turn g p pc pt pcol ds dc).1.current_player = g.current_player ∧
    (turn g p pc pt pcol ds dc).1.players.1.score = g.players.1.score ∧
    (turn g p pc pt pcol ds dc).1.players.2.score = g.players.2.score := by
  have hput := put_frame g pc p pt pcol
  unfold turn
  rcases hp : put g pc p pt pcol with ⟨g1, _ | e⟩
  · have hdraw := draw_frame g1 p ds dc
    rw [hp] at hput
    rcases hd : draw g1 p ds dc with ⟨g2, r⟩
    rw [hd] at hdraw
    simp only [hd]
    cases r <;>
      exact ⟨hdraw.1.trans hput.1, hdraw.2.1.trans hput.2.1,
        hdraw.2.2.1.trans hput.2.2.1, hdraw.2.2.2.trans hput.2.2.2⟩
  · rw [hp] at hput
    exact hput

/-! ## Helper lemmas: failure leaves the state unchanged -/

theorem put_fail_state {g : GameState} {card : Card} {p : PlayerId} {t : PlayTarget}
    {c : CardColor} {e : GameError} (h : (put g card p t c).2 = some e) :
    (put g card p t c).1 = g := by
  by_cases hm : card ∈ (g.getPlayer p).hand
  · cases t
    · rcases expedition_cases ((g.getPlayer p).expeditions.get c) card.value with hok | ⟨_, w, hw, hlt⟩
      · rw [put_eq_expedition_legal hm hok] at h
        simp at h
      · rw [put_eq_expedition_illegal hm hw hlt]
    · rw [put_eq_discard hm] at h
      simp at h
  · rw [put_eq_not_mem hm]

theorem draw_fail_state {g : GameState} {p : PlayerId} {s : DrawSource}
    {c : Option CardColor} {e : GameError} (h : (draw g p s c).2 = .error e) :
    (draw g p s c).1 = g := by
  cases s
  · rcases hdk : g.deck.getLast? with _ | card
    · rw [draw_eq_deck_empty (List.getLast?_eq_none_iff.mp hdk)]
    · rw [draw_eq_deck_top hdk] at h
      simp at h
  · rcases c with _ | c
    · rw [draw_eq_discard_no_color]
    · rcases hp : (g.discard_piles.get c).getLast? with _ | card
      · rw [draw_eq_discard_empty (List.getLast?_eq_none_iff.mp hp)]
      · rw [draw_eq_discard_top hp] at h
        simp at h

/-! ## Helper lemmas: card conservation -/

theorem sumLens_set_append (m : ColorMap (List Card)) (c : CardColor) (card : Card) :
    sumLens (m.set c (m.get c ++ [card])) = sumLens m + 1 := by
  cases c <;> simp [sumLens, COLORS, ColorMap.set, ColorMap.get] <;> omega

theorem sumLens_set_dropLast (m : ColorMap (List Card)) (c : CardColor)
    (h : m.get c ≠ []) :
    sumLens (m.set c (m.get c).dropLast) + 1 = sumLens m := by
  have hlen : 1 ≤ (m.get c).length := List.length_pos.mpr h
  cases c <;>
    simp [sumLens, COLORS, ColorMap.set, ColorMap.get, List.length_dropLast] at * <;> omega

theorem totalCards_setPlayer (g : GameState) (p : PlayerId) (hand : List Card)
    (exps : ColorMap (List Card)) (sc : Int) :
    totalCards (g.setPlayer p ⟨hand, exps, sc⟩) + (g.getPlayer p).hand.length +
      sumLens (g.getPlayer p).expeditions =
    totalCards g + hand.length + sumLens exps := by
  cases p <;> simp [totalCards, GameState.setPlayer, GameState.getPlayer] <;> omega

theorem put_total (g : GameState) (card : Card) (p : PlayerId) (t : PlayTarget)
    (c : CardColor) : totalCards (put g card p t c).1 = totalCards g := by
  by_cases hm : card ∈ (g.getPlayer p).hand
  · have hhand : 1 ≤ (g.getPlayer p).hand.length :=
      List.length_pos.mpr (List.ne_nil_of_mem hm)
    have herase : ((g.getPlayer p).hand.erase card).length =
        (g.getPlayer p).hand.length - 1 := List.length_erase_of_mem hm
    cases t
    · rcases expedition_cases ((g.getPlayer p).expeditions.get c) card.value with
        hok | ⟨_, w, hw, hlt⟩
      · rw [put_eq_expedition_legal hm hok]
        have h1 := totalCards_setPlayer g p ((g.getPlayer p).hand.erase card)
          ((g.getPlayer p).expeditions.set c ((g.getPlayer p).expeditions.get c ++ [card]))
          (g.getPlayer p).score
        have h2 := sumLens_set_append (g.getPlayer p).expeditions c card
        simp only []
        omega
      · rw [put_eq_expedition_illegal hm hw hlt]
    · rw [put_eq_discard hm]
      have h1 := totalCards_setPlayer
        { g with discard_piles := g.discard_piles.set c (g.discard_piles.get c ++ [card]) }
        p ((g.getPlayer p).hand.erase card) (g.getPlayer p).expeditions (g.getPlayer p).score
      have h3 : ({ g with
          discard_piles := g.discard_piles.set c (g.discard_piles.get c ++ [card]) } :
            GameState).getPlayer p = g.getPlayer p := by cases p <;> rfl
      rw [h3] at h1
      have h2 : totalCards ({ g with
          discard_piles := g.discard_piles.set c (g.discard_piles.get c ++ [card]) } :
            GameState) = totalCards g + 1 := by
        simp [totalCards, sumLens_set_append]
        omega
      simp only []
      omega
  · rw [put_eq_not_mem hm]

theorem draw_total (g : GameState) (p : PlayerId) (s : DrawSource) (c : Option CardColor) :
    totalCards (draw g p s c).1 = totalCards g := by
  cases s
  · rcases hdk : g.deck.getLast? with _ | card
    · rw [draw_eq_deck_empty (List.getLast?_eq_none_iff.mp hdk)]
    · rw [draw_eq_deck_top hdk]
      have hne : g.deck ≠ [] := by
        intro h
        rw [List.getLast?_eq_none_iff.mpr h] at hdk
        exact Option.noConfusion hdk
      have hlen : 1 ≤ g.deck.length := List.length_pos.mpr hne
      have h4 : g.deck.dropLast.length = g.deck.length - 1 := List.length_dropLast g.deck
      cases p <;>
        simp [totalCards, GameState.setPlayer, GameState.getPlayer] <;> omega
  · rcases c with _ | c
    · rw [draw_eq_discard_no_color]
    · rcases hp : (g.discard_piles.get c).getLast? with _ | card
      · rw [draw_eq_discard_empty (List.getLast?_eq_none_iff.mp hp)]
      · rw [draw_eq_discard_top hp]
        have hne : g.discard_piles.get c ≠ [] := by
          intro h
          rw [List.getLast?_eq_none_iff.mpr h] at hp
          exact Option.noConfusion hp
        have h2 := sumLens_set_dropLast g.discard_piles c hne
        cases p <;>
          simp [totalCards, GameState.setPlayer, GameState.getPlayer] <;> omega

theorem turn_total (g : GameState) (p : PlayerId) (pc : Card) (pt : PlayTarget)
    (pcol : CardColor) (ds : DrawSource) (dc : Option CardColor) :
    totalCards (turn g p pc pt pcol ds dc).1 = totalCards g := by
  have hput := put_total g pc p pt pcol
  unfold turn
  rcases hp : put g pc p pt pcol with ⟨g1, _ | e⟩
  · have hdraw := draw_total g1 p ds dc
    rw [hp] at hput
    rcases hd : draw g1 p ds dc with ⟨g2, r⟩
    rw [hd] at hdraw
    simp only [hd]
    cases r <;> exact hdraw.trans hput
  · rw [hp] at hput
    exact hput

theorem sumLens_empty : sumLens emptyPiles = 0 := rfl

theorem init_total (seed : Nat) : totalCards (init_game seed) = 72 := by
  obtain ⟨h1, h2, h3⟩ := init_game_lengths seed
  have e1 : (init_game seed).players.1.expeditions = emptyPiles := rfl
  have e2 : (init_game seed).players.2.expeditions = emptyPiles := rfl
  have e3 : (init_game seed).discard_piles = emptyPiles := rfl
  unfold totalCards
  rw [h1, h2, h3, e1, e2, e3, sumLens_empty]

/-! ## Helper lemmas: container accessors and `put` on an expedition -/

theorem get_set_same {α : Type} (m : ColorMap α) (c : CardColor) (v : α) :
    (m.set c v).get c = v := by
  cases c <;> rfl

theorem getPlayer_withDeck (X : GameState) (d : List Card) (p : PlayerId) :
    ({ X with deck := d } : GameState).getPlayer p = X.getPlayer p := by
  cases p <;> rfl

theorem getPlayer_withDiscard (X : GameState) (m : ColorMap (List Card)) (p : PlayerId) :
    ({ X with discard_piles := m } : GameState).getPlayer p = X.getPlayer p := by
  cases p <;> rfl

theorem put_expedition_char (g : GameState) (card : Card) (p : PlayerId)
    (color : CardColor) (hm : card ∈ (g.getPlayer p).hand) :
    (((put g card p .expedition color).2 = none) ↔
      expedition_value_ok ((g.getPlayer p).expeditions.get color) card.value = true) ∧
    (expedition_value_ok ((g.getPlayer p).expeditions.get color) card.value = false →
      put g card p .expedition color =
        (g, some (.invalidMove "Number card must be >= previous number card"))) ∧
    (expedition_value_ok ((g.getPlayer p).expeditions.get color) card.value = true →
      ((put g card p .expedition color).1.getPlayer p).expeditions.get color =
        (g.getPlayer p).expeditions.get color ++ [card] ∧
      ((put g card p .expedition color).1.getPlayer p).hand =
        (g.getPlayer p).hand.erase card) := by
  rcases expedition_cases ((g.getPlayer p).expeditions.get color) card.value with
    hok | ⟨hfalse, w, hw, hlt⟩
  · rw [put_eq_expedition_legal hm hok]
    refine ⟨by simp [hok], by simp [hok], fun _ => ?_⟩
    constructor
    · simp [get_set_same]
    · simp
  · rw [put_eq_expedition_illegal hm hw hlt]
    refine ⟨by simp [hfalse], fun _ => rfl, fun htrue => ?_⟩
    rw [hfalse] at htrue
    exact Bool.noConfusion htrue

theorem nonzero_sum_eq (stack : List Card) :
    ((stack.filter (fun c => c.value ≠ 0)).map Card.value).sum =
      (stack.map Card.value).sum := by
  induction stack with
  | nil => rfl
  | cons a t ih =>
    simp only [ne_eq, decide_not] at ih
    by_cases h : a.value = 0 <;> simp [h, ih]

theorem handshake_count_eq (stack : List Card) :
    handshake_count_spec stack = (stack.filter (fun c => c.value = 0)).length := by
  unfold handshake_count_spec
  rw [List.countP_eq_length_filter]
  congr 1

/-! ## Claims -/

/-- C1 (counterexample): the spec's expedition-legality condition says a
handshake (value 0) is always appendable, but on a concrete state whose red
expedition already holds a red 5, playing a red handshake from the hand — a
play the spec's condition `spec_expedition_legal` declares legal — is rejected
by `put` with the InvalidMove error. -/
theorem C1_counterexample :
    Card.mk RED 0 ∈ (sampleState.getPlayer .P1).hand ∧
    spec_expedition_legal ((sampleState.getPlayer .P1).expeditions.get RED)
      (Card.mk RED 0).value = true ∧
    (put sampleState (Card.mk RED 0) .P1 .expedition RED).2 =
      some (.invalidMove "Number card must be >= previous number card") := by
  refine ⟨by decide, by decide, by decide⟩

/-- C1 (amended): for every `put(state, card, player, target=expedition,
color)` with `card` in the player's hand, the play succeeds if and only if no
non-zero (number) card has yet been played on the expedition stack for
`color` — in particular when the stack is empty or holds only handshakes — or
the card's value is ≥ the most recently played non-zero value on that
expedition (`expedition_value_ok`); otherwise it fails with InvalidMove
("Number card must be >= previous number card").  A handshake is not always
appendable: it obeys the same value comparison. -/
theorem C1_expedition_rule (g : GameState) (card : Card) (p : PlayerId)
    (color : CardColor) (hm : card ∈ (g.getPlayer p).hand) :
    (((put g card p .expedition color).2 = none) ↔
      expedition_value_ok ((g.getPlayer p).expeditions.get color) card.value = true) ∧
    (expedition_value_ok ((g.getPlayer p).expeditions.get color) card.value = false →
      put g card p .expedition color =
        (g, some (.invalidMove "Number card must be >= previous number card"))) :=
  ⟨(put_expedition_char g card p color hm).1, (put_expedition_char g card p color hm).2.1⟩

/-- C1 (witness): playing the blue 3 from the sample hand onto the empty blue
expedition is legal, by the amended rule. -/
theorem C1_witness :
    Card.mk BLUE 3 ∈ (sampleState.getPlayer .P1).hand ∧
    (put sampleState (Card.mk BLUE 3) .P1 .expedition BLUE).2 = none :=
  ⟨by decide,
    (C1_expedition_rule sampleState (Card.mk BLUE 3) .P1 BLUE (by decide)).1.mpr (by decide)⟩

/-- C2: `score_expedition` returns 0 on an empty stack and otherwise
`(h + 1) * (s - 20)` with `h` the number of value-0 cards and `s` the sum of
the non-zero values; the three worked examples score −39, −5 and −28. -/
theorem C2_score_expedition :
    (∀ stack : List Card, stack = [] → score_expedition stack = 0) ∧
    (∀ stack : List Card, stack ≠ [] →
      score_expedition stack =
        ((handshake_count_spec stack : Int) + 1) * ((number_sum_spec stack : Int) - 20)) ∧
    score_expedition [Card.mk RED 0, Card.mk RED 0, Card.mk RED 2, Card.mk RED 5] = -39 ∧
    score_expedition [Card.mk RED 2, Card.mk RED 3, Card.mk RED 10] = -5 ∧
    score_expedition [Card.mk RED 0, Card.mk RED 2, Card.mk RED 4] = -28 := by
  refine ⟨?_, ?_, by decide, by decide, by decide⟩
  · intro stack h
    subst h
    rfl
  · intro stack h
    unfold score_expedition
    rw [if_neg h]
    rw [handshake_count_eq]
    unfold number_sum_spec
    rw [← nonzero_sum_eq stack]

/-- C2 (witness): the two guarded clauses evaluated on `[]` and on a
one-card stack. -/
theorem C2_witness :
    score_expedition [] = 0 ∧
    score_expedition [Card.mk RED 2] =
      ((handshake_count_spec [Card.mk RED 2] : Int) + 1) *
        ((number_sum_spec [Card.mk RED 2] : Int) - 20) :=
  ⟨C2_score_expedition.1 [] rfl, C2_score_expedition.2.1 [Card.mk RED 2] (by decide)⟩

/-- C3: for every seed, the shuffled deck before dealing has 72 cards with,
for each of the six colors, exactly three value-0 cards and exactly one card
of each value 2..10; after dealing, each hand has 8 cards, the deck has 56,
`current_player = 0`, `phase = PLAY`, and all six discard piles are empty. -/
theorem C3_init_game (seed : Nat) :
    (shuffle seed rawDeck).length = 72 ∧
    (∀ c : CardColor, (shuffle seed rawDeck).count (Card.mk c 0) = 3 ∧
      ∀ v : Nat, 2 ≤ v → v ≤ 10 → (shuffle seed rawDeck).count (Card.mk c v) = 1) ∧
    (init_game seed).players.1.hand.length = 8 ∧
    (init_game seed).players.2.hand.length = 8 ∧
    (init_game seed).deck.length = 56 ∧
    (init_game seed).current_player = 0 ∧
    (init_game seed).phase = GamePhase.PLAY ∧
    ∀ c : CardColor, (init_game seed).discard_piles.get c = [] := by
  have hperm := shuffle_perm seed rawDeck
  obtain ⟨hd, h1, h2⟩ := init_game_lengths seed
  refine ⟨shuffled_length seed, ?_, h1, h2, hd, rfl, rfl, fun c => by cases c <;> rfl⟩
  intro c
  constructor
  · rw [hperm.count_eq]
    cases c <;> decide
  · intro v hv2 hv10
    rw [hperm.count_eq]
    interval_cases v <;> cases c <;> decide

/-- C3 (witness): the bounded-value clause evaluated at seed 0, color RED,
value 4, together with the deck size. -/
theorem C3_witness :
    (shuffle 0 rawDeck).count (Card.mk RED 4) = 1 ∧ (init_game 0).deck.length = 56 :=
  ⟨((C3_init_game 0).2.1 RED).2 4 (by decide) (by decide), (C3_init_game 0).2.2.2.2.1⟩

/-- C4: `init_game` is deterministic in the seed — two calls with the same
integer seed yield the same deck card-for-card and the same two hands
card-for-card.  (In the embedding the seeded generator is a pure function of
the seed, which is exactly the property the claim asserts of the Python
global Mersenne Twister after `random.seed(s)`.) -/
theorem C4_deterministic (s1 s2 : Nat) (h : s1 = s2) :
    (init_game s1).deck = (init_game s2).deck ∧
    (init_game s1).players.1.hand = (init_game s2).players.1.hand ∧
    (init_game s1).players.2.hand = (init_game s2).players.2.hand := by
  subst h
  exact ⟨rfl, rfl, rfl⟩

/-- C4 (witness): the two runs at seed 42 agree. -/
theorem C4_witness :
    (init_game 42).deck = (init_game 42).deck ∧
    (init_game 42).players.1.hand = (init_game 42).players.1.hand ∧
    (init_game 42).players.2.hand = (init_game 42).players.2.hand :=
  C4_deterministic 42 42 rfl

/-- C5: every state reachable from `init_game` by any sequence of `put`,
`draw` and `turn` calls (successful or failing) has exactly 72 cards in
total across deck, both hands, all expedition stacks and all discard
piles. -/
theorem C5_conservation (g : GameState) (h : Reach g) : totalCards g = 72 := by
  induction h with
  | init seed => exact init_total seed
  | step_put card p t c _ ih => exact (put_total _ card p t c).trans ih
  | step_draw p s c _ ih => exact (draw_total _ p s c).trans ih
  | step_turn p pc pt pcol ds dc _ ih => exact (turn_total _ p pc pt pcol ds dc).trans ih

/-- C5 (witness): the freshly initialized game at seed 0 has 72 cards. -/
theorem C5_witness : totalCards (init_game 0) = 72 :=
  C5_conservation _ (Reach.init 0)

/-- C6: `draw` from the deck fails with EmptyResource iff the deck is empty
and otherwise pops the top (end) card of the deck into the player's hand and
returns it; `draw` from a discard pile fails with MissingParameter iff no
color is given, fails with EmptyResource iff the chosen pile is empty, and
otherwise pops that pile's most recently discarded card (LIFO) into the
player's hand and returns it. -/
theorem C6_draw (g : GameState) (p : PlayerId) (col : Option CardColor) :
    ((draw g p .deck col).2 = .error (.emptyResource "Deck is empty") ↔ g.deck = []) ∧
    (∀ card : Card, g.deck.getLast? = some card →
      (draw g p .deck col).2 = .ok card ∧
      ((draw g p .deck col).1.getPlayer p).hand = (g.getPlayer p).hand ++ [card] ∧
      (draw g p .deck col).1.deck = g.deck.dropLast) ∧
    (draw g p .discard none).2 =
      .error (.missingParameter "Color required when drawing from discard") ∧
    ∀ c : CardColor,
      (draw g p .discard (some c)).2 ≠
        .error (.missingParameter "Color required when drawing from discard") ∧
      ((draw g p .discard (some c)).2 =
          .error (.emptyResource ("Discard pile " ++ colorName c ++ " is empty")) ↔
        g.discard_piles.get c = []) ∧
      ∀ card : Card, (g.discard_piles.get c).getLast? = some card →
        (draw g p .discard (some c)).2 = .ok card ∧
        ((draw g p .discard (some c)).1.getPlayer p).hand =
          (g.getPlayer p).hand ++ [card] ∧
        (draw g p .discard (some c)).1.discard_piles.get c =
          (g.discard_piles.get c).dropLast := by
  refine ⟨?_, ?_, draw_eq_discard_no_color.symm ▸ rfl, ?_⟩
  · rcases hdk : g.deck.getLast? with _ | card
    · have he := List.getLast?_eq_none_iff.mp hdk
      rw [draw_eq_deck_empty he]
      simp [he]
    · have hne : g.deck ≠ [] := by
        intro hh
        rw [List.getLast?_eq_none_iff.mpr hh] at hdk
        exact Option.noConfusion hdk
      rw [draw_eq_deck_top hdk]
      simp [hne]
  · intro card hc
    rw [draw_eq_deck_top hc]
    exact ⟨rfl, by rw [getPlayer_withDeck, getPlayer_setPlayer_same], rfl⟩
  · intro c
    refine ⟨?_, ?_, ?_⟩
    · rcases hp : (g.discard_piles.get c).getLast? with _ | card
      · rw [draw_eq_discard_empty (List.getLast?_eq_none_iff.mp hp)]
        simp
      · rw [draw_eq_discard_top hp]
        simp
    · rcases hp : (g.discard_piles.get c).getLast? with _ | card
      · have he := List.getLast?_eq_none_iff.mp hp
        rw [draw_eq_discard_empty he]
        simp [he]
      · have hne : g.discard_piles.get c ≠ [] := by
          intro hh
          rw [List.getLast?_eq_none_iff.mpr hh] at hp
          exact Option.noConfusion hp
        rw [draw_eq_discard_top hp]
        simp [hne]
    · intro card hc
      rw [draw_eq_discard_top hc]
      refine ⟨rfl, ?_, ?_⟩
      · rw [getPlayer_withDiscard, getPlayer_setPlayer_same]
      · exact get_set_same ..

/-- C6 (witness): on the sample state, drawing from the deck yields the
yellow 4 (the end of the deck list) and drawing from the blue discard pile
yields the blue 9. -/
theorem C6_witness :
    (draw sampleState .P1 .deck none).2 = .ok (Card.mk YELLOW 4) ∧
    (draw sampleState .P1 .discard (some BLUE)).2 = .ok (Card.mk BLUE 9) :=
  ⟨((C6_draw sampleState .P1 none).2.1 (Card.mk YELLOW 4) (by decide)).1,
   (((C6_draw sampleState .P1 none).2.2.2 BLUE).2.2 (Card.mk BLUE 9) (by decide)).1⟩

/-- C7: when the `put` step of `turn` fails, `draw` is not executed and the
whole call returns the input state unchanged along with the `put` error. -/
theorem C7_turn_atomic_on_put_failure (g : GameState) (p : PlayerId) (pc : Card)
    (pt : PlayTarget) (pcol : CardColor) (ds : DrawSource) (dc : Option CardColor)
    (e : GameError) (h : (put g pc p pt pcol).2 = some e) :
    turn g p pc pt pcol ds dc = (g, some e) := by
  have hs := put_fail_state h
  unfold turn
  rcases hp : put g pc p pt pcol with ⟨g1, _ | e'⟩
  · rw [hp] at h
    exact absurd h (by simp)
  · rw [hp] at h hs
    have he : e' = e := Option.some.inj h
    have hg : g1 = g := hs
    rw [he, hg]

/-- C7 (witness): a `turn` whose play names a card outside the hand leaves
the sample state untouched and reports the `put` error. -/
theorem C7_witness :
    turn sampleState .P1 (Card.mk PURPLE 10) .discard RED .deck none =
      (sampleState, some (.invalidMove "Player does not have that card")) :=
  C7_turn_atomic_on_put_failure sampleState .P1 (Card.mk PURPLE 10) .discard RED .deck
    none (.invalidMove "Player does not have that card") (by decide)

/-- C8: a failing `put` or `draw` performs no mutation at all — the returned
state is exactly the input state. -/
theorem C8_no_partial_mutation (g : GameState) (p : PlayerId) :
    (∀ (card : Card) (t : PlayTarget) (c : CardColor) (e : GameError),
      (put g card p t c).2 = some e → (put g card p t c).1 = g) ∧
    (∀ (s : DrawSource) (c : Option CardColor) (e : GameError),
      (draw g p s c).2 = .error e → (draw g p s c).1 = g) :=
  ⟨fun _ _ _ _ h => put_fail_state h, fun _ _ _ h => draw_fail_state h⟩

/-- C8 (witness): a card-not-in-hand `put` and a color-less discard `draw`
both leave the sample state unchanged. -/
theorem C8_witness :
    (put sampleState (Card.mk PURPLE 10) .P1 .discard RED).1 = sampleState ∧
    (draw sampleState .P1 .discard none).1 = sampleState :=
  ⟨(C8_no_partial_mutation sampleState .P1).1 (Card.mk PURPLE 10) .discard RED
      (.invalidMove "Player does not have that card") (by decide),
   (C8_no_partial_mutation sampleState .P1).2 .discard none
      (.missingParameter "Color required when drawing from discard") rfl⟩

/-- C9: no engine operation changes `phase`, `current_player`, or either
player's stored `score` field, and `get_winner` returns the strictly
higher-scoring player (or the draw marker on equality) without mutating
anything — it is a pure comparison of the two computed scores. -/
theorem C9_engine_frame :
    (∀ (g : GameState) (card : Card) (p : PlayerId) (t : PlayTarget) (c : CardColor),
      (put g card p t c).1.phase = g.phase ∧
      (put g card p t c).1.current_player = g.current_player ∧
      (put g card p t c).1.players.1.score = g.players.1.score ∧
      (put g card p t c).1.players.2.score = g.players.2.score) ∧
    (∀ (g : GameState) (p : PlayerId) (s : DrawSource) (c : Option CardColor),
      (draw g p s c).1.phase = g.phase ∧
      (draw g p s c).1.current_player = g.current_player ∧
      (draw g p s c).1.players.1.score = g.players.1.score ∧
      (draw g p s c).1.players.2.score = g.players.2.score) ∧
    (∀ (g : GameState) (p : PlayerId) (pc : Card) (pt : PlayTarget) (pcol : CardColor)
      (ds : DrawSource) (dc : Option CardColor),
      (turn g p pc pt pcol ds dc).1.phase = g.phase ∧
      (turn g p pc pt pcol ds dc).1.current_player = g.current_player ∧
      (turn g p pc pt pcol ds dc).1.players.1.score = g.players.1.score ∧
      (turn g p pc pt pcol ds dc).1.players.2.score = g.players.2.score) ∧
    ∀ p1 p2 : Player,
      (calculate_score p1 > calculate_score p2 → get_winner p1 p2 = .winner p1) ∧
      (calculate_score p2 > calculate_score p1 → get_winner p1 p2 = .winner p2) ∧
      (calculate_score p1 = calculate_score p2 → get_winner p1 p2 = .tie) := by
  refine ⟨put_frame, draw_frame, turn_frame, ?_⟩
  intro p1 p2
  simp only [get_winner]
  refine ⟨fun h => ?_, fun h => ?_, fun h => ?_⟩
  · rw [if_pos h]
  · rw [if_neg (by omega), if_pos h]
  · rw [if_neg (by omega), if_neg (by omega)]

/-- C9 (witness): the empty-expedition player beats the −5 player, by the
`get_winner` clause of the frame theorem. -/
theorem C9_witness :
    get_winner samplePlayerA samplePlayerB = .winner samplePlayerB :=
  (C9_engine_frame.2.2.2 samplePlayerA samplePlayerB).2.1 (by decide)

/-- C10: `put` never compares the card's own color with the `color`
argument: any card in the hand may be discarded onto any color's pile
(unconditionally, landing on that pile), and played onto any color's
expedition subject only to the value rule `expedition_value_ok`, which reads
nothing but the card's value; replacing the card's color by any other color
(for a card also in the hand) leaves the outcome of an expedition play
unchanged. -/
theorem C10_no_color_check (g : GameState) (card : Card) (p : PlayerId)
    (color : CardColor) (hm : card ∈ (g.getPlayer p).hand) :
    ((put g card p .discard color).2 = none ∧
      (put g card p .discard color).1.discard_piles.get color =
        g.discard_piles.get color ++ [card]) ∧
    (((put g card p .expedition color).2 = none) ↔
      expedition_value_ok ((g.getPlayer p).expeditions.get color) card.value = true) ∧
    (expedition_value_ok ((g.getPlayer p).expeditions.get color) card.value = true →
      ((put g card p .expedition color).1.getPlayer p).expeditions.get color =
        (g.getPlayer p).expeditions.get color ++ [card]) ∧
    ∀ k : CardColor, Card.mk k card.value ∈ (g.getPlayer p).hand →
      (put g (Card.mk k card.value) p .expedition color).2 =
        (put g card p .expedition color).2 := by
  refine ⟨?_, (put_expedition_char g card p color hm).1,
    fun hok => ((put_expedition_char g card p color hm).2.2 hok).1, ?_⟩
  · rw [put_eq_discard hm]
    refine ⟨rfl, ?_⟩
    rw [setPlayer_discard]
    exact get_set_same ..
  · intro k hk
    cases hval : expedition_value_ok ((g.getPlayer p).expeditions.get color) card.value
    · have h1 := (put_expedition_char g card p color hm).2.1 hval
      have h2 := (put_expedition_char g (Card.mk k card.value) p color hk).2.1 hval
      rw [h1, h2]
    · have h1 := (put_expedition_char g card p color hm).1.mpr hval
      have h2 := (put_expedition_char g (Card.mk k card.value) p color hk).1.mpr hval
      rw [h1, h2]

/-- C10 (witness): the blue 3 from the sample hand lands on the green
discard pile, and recoloring it white leaves the expedition outcome
unchanged. -/
theorem C10_witness :
    (put sampleState (Card.mk BLUE 3) .P1 .discard GREEN).2 = none ∧
    (put sampleState (Card.mk BLUE 3) .P1 .discard GREEN).1.discard_piles.get GREEN =
      sampleState.discard_piles.get GREEN ++ [Card.mk BLUE 3] :=
  (C10_no_color_check sampleState (Card.mk BLUE 3) .P1 GREEN (by decide)).1

end LostCities
